import Mathlib

/-!
# Verification of the ticktick-mcp specification against its source

Shallow embedding of `src/ticktick_mcp/auth.py`, `src/ticktick_mcp/client.py`
and `src/ticktick_mcp/server.py` (plus the brief-injection helper exercised by
`tests/test_brief.py`).  Remote HTTP exchanges are modelled as oracle
parameters: a definition receives the status code and parsed body the remote
side would answer with, and the theorems quantify over them.  Python `dict`
records are modelled as structures holding exactly the fields the code reads;
Python truthiness on optional strings/integers is modelled explicitly.
-/

deriving instance DecidableEq for Except

namespace TickTick

/-- The persisted OAuth credential record (`tokens.json`).  Mirrors the dict
built by `exchange_code` / `refresh_access_token` in `auth.py`: keys
`access_token`, `refresh_token`, `token_type`, `expires_at` (epoch millis),
`scope`.  Optional fields model keys that may hold `None`/be absent. -/
structure TokenSet where
  access_token : String
  refresh_token : Option String
  token_type : Option String
  expires_at : Option Int
  scope : Option String
deriving Repr, DecidableEq

/-- The parsed JSON body of a token-endpoint response, holding exactly the
keys the exchange code reads (`body["access_token"]`, `body.get(...)`). -/
structure TokenResponse where
  access_token : String
  refresh_token : Option String
  token_type : Option String
  expires_in : Option Int
  scope : Option String
deriving Repr, DecidableEq

/-- Python truthiness of an optional string (`None` and `""` are falsy). -/
def truthyStr : Option String → Bool
  | some s => s != ""
  | none => false

/-- Python truthiness of an optional integer (`None` and `0` are falsy). -/
def truthyInt : Option Int → Bool
  | some e => e != 0
  | none => false

/-- `body.get("refresh_token") or refresh_token` from `auth.py` line 88:
Python `or` falls back when the left side is falsy (`None` or `""`). -/
def orFalsy : Option String → String → String
  | some s, d => if s = "" then d else s
  | none, d => d

/-- `exchange_code` (`auth.py` lines 31-61), from the point where the token
endpoint has answered with `status` and body `resp`.  A status `≥ 400` raises;
otherwise the returned dict is built with
`expires_at = now_ms + body.get("expires_in", 3600) * 1000`. -/
def exchange_code (now_ms : Int) (status : Nat) (resp : TokenResponse) :
    Except String TokenSet :=
  if status ≥ 400 then .error "Token exchange failed"
  else .ok
    { access_token := resp.access_token
      refresh_token := resp.refresh_token
      token_type := resp.token_type
      expires_at := some (now_ms + (resp.expires_in.getD 3600) * 1000)
      scope := resp.scope }

/-- `refresh_access_token` (`auth.py` lines 64-92), from the point where the
token endpoint has answered.  Differs from `exchange_code` in keeping the
prior `refreshToken` when the response body carries no (truthy) new one. -/
def refresh_access_token (refreshToken : String) (now_ms : Int) (status : Nat)
    (resp : TokenResponse) : Except String TokenSet :=
  if status ≥ 400 then .error "Token refresh failed"
  else .ok
    { access_token := resp.access_token
      refresh_token := some (orFalsy resp.refresh_token refreshToken)
      token_type := resp.token_type
      expires_at := some (now_ms + (resp.expires_in.getD 3600) * 1000)
      scope := resp.scope }

/-- Outcome of one `get_access_token` resolution: the returned token (or the
raised "No authentication tokens found." error), the record written by the
last `save_tokens` call if any, and how many refresh / auth-code exchanges
were performed against the token endpoint. -/
structure AuthOutcome where
  result : Except String String
  savedTokens : Option TokenSet
  refreshCalls : Nat
  exchangeCalls : Nat
deriving Repr, DecidableEq

/-- Priority 3 of `get_access_token` (`auth.py` lines 129-145): one-time auth
code exchange if `TICKTICK_AUTH_CODE` plus both credentials are truthy,
otherwise (or on exchange failure) the "unauthenticated" error.
`rc` carries the number of refresh calls already made by priority 2. -/
def authCodePath (envAuthCode client_id client_secret : Option String)
    (now_ms : Int) (exchangeStatus : Nat) (exchangeResp : TokenResponse)
    (rc : Nat) : AuthOutcome :=
  if truthyStr envAuthCode && truthyStr client_id && truthyStr client_secret then
    match exchange_code now_ms exchangeStatus exchangeResp with
    | .ok nt =>
      { result := .ok nt.access_token, savedTokens := some nt
        refreshCalls := rc, exchangeCalls := 1 }
    | .error _ =>
      { result := .error "No authentication tokens found.", savedTokens := none
        refreshCalls := rc, exchangeCalls := 1 }
  else
    { result := .error "No authentication tokens found.", savedTokens := none
      refreshCalls := rc, exchangeCalls := 0 }

/-- `get_access_token` (`auth.py` lines 95-145).  Environment variables and
the on-disk record are passed in explicitly; the two possible network
exchanges are oracles `(refreshStatus, refreshResp)` / `(exchangeStatus,
exchangeResp)`.  Follows the source's priority chain:
env access token → disk record (refreshing when expired with a 60 s buffer,
`expires_at` truthiness included) → auth-code exchange → error.  The disk
record is modelled as a well-formed `TokenSet` (the saved files always carry
an `access_token` key). -/
def get_access_token (envAccess envRefresh envAuthCode : Option String)
    (client_id client_secret : Option String) (disk : Option TokenSet)
    (now_ms : Int) (refreshStatus : Nat) (refreshResp : TokenResponse)
    (exchangeStatus : Nat) (exchangeResp : TokenResponse) : AuthOutcome :=
  if truthyStr envAccess then
    -- Priority 1: env var access token, wrapped with no expiry and persisted.
    let t : TokenSet :=
      { access_token := envAccess.getD "", refresh_token := envRefresh
        token_type := none, expires_at := none, scope := none }
    { result := .ok t.access_token, savedTokens := some t
      refreshCalls := 0, exchangeCalls := 0 }
  else
    match disk with
    | none => authCodePath envAuthCode client_id client_secret now_ms
        exchangeStatus exchangeResp 0
    | some t =>
      if truthyInt t.expires_at && decide (now_ms > t.expires_at.getD 0 - 60000) then
        if truthyStr t.refresh_token && truthyStr client_id && truthyStr client_secret then
          match refresh_access_token (t.refresh_token.getD "") now_ms
              refreshStatus refreshResp with
          | .ok nt =>
            { result := .ok nt.access_token, savedTokens := some nt
              refreshCalls := 1, exchangeCalls := 0 }
          | .error _ =>
            -- `tokens = None`: fall through to priority 3.
            authCodePath envAuthCode client_id client_secret now_ms
              exchangeStatus exchangeResp 1
        else
          authCodePath envAuthCode client_id client_secret now_ms
            exchangeStatus exchangeResp 0
      else
        { result := .ok t.access_token, savedTokens := none
          refreshCalls := 0, exchangeCalls := 0 }

/-! ## `client.py`: the request policy

`client.py` is synchronous (`urllib`) but imports `get_access_token` and
`refresh_access_token` from `auth.py`, where both are declared `async def`.
`TickTickClient._request` (line 48) invokes `refresh_access_token(...)`
without `await`, so at run time the call merely builds a coroutine object and
performs no HTTP exchange; the subsequent `save_tokens(new_tokens)` calls
`json.dumps` on that coroutine, which raises `TypeError`, caught by the
blanket `except Exception: pass`.  We model Python values that may be either
a real dict or such an un-awaited coroutine. -/

/-- A Python value reaching `save_tokens` / subscripting in `_request`:
either a token dict or the coroutine object returned by calling an
`async def` function without `await`. -/
inductive PyVal where
  | dict (t : TokenSet)
  | coroutine
deriving Repr, DecidableEq

/-- The value of `refresh_access_token(...)` as called (without `await`) at
`client.py` line 48: a coroutine object; the function body — and hence the
refresh HTTP exchange — does not run. -/
def refresh_call_unawaited : PyVal := .coroutine

/-- `save_tokens` applied to a Python value: on a dict it writes (and here
returns) the record; `json.dumps` raises `TypeError` on a coroutine object
before anything is written. -/
def save_tokens_py : PyVal → Except String TokenSet
  | .dict t => .ok t
  | .coroutine => .error "TypeError: Object of type coroutine is not JSON serializable"

/-- `value["access_token"]` on a Python value: subscripting a coroutine
raises `TypeError`. -/
def pyIndexAccessToken : PyVal → Except String String
  | .dict t => .ok t.access_token
  | .coroutine => .error "TypeError: coroutine object is not subscriptable"

/-- The `try:` block of `_request` (`client.py` lines 47-53): refresh (un-
awaited), persist, read the new access token, retry the call.  Returns the
new token together with the retry's `(status, data)` on success. -/
def tryRefreshRetry (retryStatus : Nat) (retryData : Option String) :
    Except String (TokenSet × Nat × Option String) := do
  let newTokens := refresh_call_unawaited
  let written ← save_tokens_py newTokens
  let _ ← pyIndexAccessToken newTokens
  .ok (written, retryStatus, retryData)

/-- Outcome of `_request`: the returned payload or the raised
`TickTick API error` (carrying status, method, endpoint), the number of retry
HTTP calls actually issued, and the record written by `save_tokens` if any. -/
structure RequestOutcome where
  result : Except (Nat × String × String) (Option String)
  retries : Nat
  savedTokens : Option TokenSet
deriving Repr, DecidableEq

/-- `_request` (`client.py` lines 39-57) from the point where the first
`_do_http` call has answered `(firstStatus, firstData)`.  `disk` is what
`load_tokens()` returns inside the 401 branch; `(retryStatus, retryData)` is
the oracle for the retried call, which — see `tryRefreshRetry` — is never
reached because persisting the un-awaited coroutine raises first. -/
def request (method endpoint : String) (firstStatus : Nat)
    (firstData : Option String) (disk : Option TokenSet)
    (client_id client_secret : Option String)
    (retryStatus : Nat) (retryData : Option String) : RequestOutcome :=
  let refreshable :=
    match disk with
    | some t => truthyStr t.refresh_token && truthyStr client_id && truthyStr client_secret
    | none => false
  let afterRetry :=
    if firstStatus = 401 && refreshable then
      match tryRefreshRetry retryStatus retryData with
      | .ok (written, s, d) => (s, d, 1, some written)
      | .error _ => (firstStatus, firstData, 0, none)  -- `except Exception: pass`
    else (firstStatus, firstData, 0, none)
  if afterRetry.1 ≥ 400 then
    { result := .error (afterRetry.1, method, endpoint)
      retries := afterRetry.2.2.1, savedTokens := afterRetry.2.2.2 }
  else
    { result := .ok afterRetry.2.1, retries := afterRetry.2.2.1
      savedTokens := afterRetry.2.2.2 }

/-! ## `client.py`: inbox-id discovery -/

/-- Mutable per-process state of `TickTickClient`: the cached access token
and the memoized inbox id (`client.py` lines 15-16). -/
structure ClientState where
  cachedAccessToken : Option String
  cachedInboxId : Option String
deriving Repr, DecidableEq

/-- The fields of the task record returned by `create_task` that
`get_inbox_id` reads. -/
structure CreatedTask where
  projectId : String
  id : String
deriving Repr, DecidableEq

/-- Outcome of one `get_inbox_id` call: the returned id (or the propagated
probe-creation error), the client state afterwards, how many probe tasks were
created and how many delete calls were issued, and the error swallowed by the
best-effort delete if there was one. -/
structure InboxOutcome where
  result : Except String String
  state : ClientState
  createCalls : Nat
  deleteCalls : Nat
  deleteError : Option String
deriving Repr, DecidableEq

/-- `get_inbox_id` (`client.py` lines 61-70).  `createRes` / `deleteRes` are
oracles for the two remote calls.  `if self._inbox_id:` is Python truthiness:
`None` and `""` both re-run the probe.  The delete is wrapped in
`try ... except Exception: pass`, so its failure is recorded but never
affects the result. -/
def get_inbox_id (createRes : Except String CreatedTask)
    (deleteRes : Except String Unit) (st : ClientState) : InboxOutcome :=
  if truthyStr st.cachedInboxId then
    { result := .ok (st.cachedInboxId.getD ""), state := st
      createCalls := 0, deleteCalls := 0, deleteError := none }
  else
    match createRes with
    | .error e =>
      { result := .error e, state := st
        createCalls := 1, deleteCalls := 0, deleteError := none }
    | .ok temp =>
      let st' : ClientState := { st with cachedInboxId := some temp.projectId }
      { result := .ok temp.projectId, state := st'
        createCalls := 1, deleteCalls := 1
        deleteError := match deleteRes with
          | .ok _ => none
          | .error e => some e }

/-! ## `server.py`: tool registry and MCP protocol -/

/-- One entry of the static `TOOLS` table: its registered name and
human-readable description (`server.py` lines 51-188; the JSON `inputSchema`
and the handler function are not needed by the claims — handler behaviour is
an oracle of `handle`). -/
structure ToolEntry where
  name : String
  description : String
deriving Repr, DecidableEq

/-- The static tool registry in registration (= dict insertion) order, as
built by the `@tool(...)` decorators of `server.py`. -/
def TOOLS : List ToolEntry :=
  [ ⟨"get_inbox",
      "Get the Inbox project with all its tasks. The Inbox is a special built-in project in TickTick that is NOT included in list_projects. Use this tool whenever you need to see inbox tasks. Returns the inbox project data including all tasks."⟩,
    ⟨"get_inbox_id",
      "Get the Inbox project ID. Useful when you need the inbox projectId for other operations like complete_task, delete_task, or update_task on inbox tasks. The inbox ID has the format \"inbox<userId>\" and is unique per user."⟩,
    ⟨"list_projects",
      "List all TickTick projects (task lists). IMPORTANT: This does NOT include the Inbox — use get_inbox to access inbox tasks."⟩,
    ⟨"get_project", "Get a TickTick project by ID"⟩,
    ⟨"get_project_with_data",
      "Get a TickTick project with all its tasks and columns. For inbox tasks, use get_inbox instead."⟩,
    ⟨"create_project", "Create a new TickTick project (task list)"⟩,
    ⟨"update_project", "Update an existing TickTick project"⟩,
    ⟨"delete_project", "Delete a TickTick project"⟩,
    ⟨"get_task", "Get a specific task by project ID and task ID"⟩,
    ⟨"create_task",
      "Create a new task in TickTick. If projectId is omitted, the task goes to Inbox. Supports title, content, dates, priority (0=none, 1=low, 3=medium, 5=high), tags, subtasks (items), reminders, and recurrence (repeatFlag in iCal RRULE format). The response includes the assigned projectId (useful for getting the inbox ID)."⟩,
    ⟨"update_task", "Update an existing task. Provide only the fields you want to change."⟩,
    ⟨"complete_task", "Mark a task as completed"⟩,
    ⟨"delete_task", "Delete a task from TickTick"⟩,
    ⟨"batch_create_tasks",
      "Create multiple tasks at once. Each task object supports the same fields as create_task."⟩ ]

/-- The registered tool names, in order. -/
def toolNames : List String := TOOLS.map ToolEntry.name

/-- The request `params` fields read by `_handle`:
`params.get("protocolVersion", ...)` for `initialize` and `params["name"]`
for `tools/call` (absent `name` raises `KeyError`).  The `arguments` dict is
folded into the handler oracle. -/
structure CallParams where
  protocolVersion : Option String
  name : Option String
deriving Repr, DecidableEq

/-- A successful `_handle` return value (`server.py` lines 193-220): the
`initialize` envelope, the `tools/list` enumeration, or a `tools/call`
result — text content plus the `isError` flag (absent on success, modelled
as `false`). -/
inductive HandleOk where
  | initResult (protocolVersion : String)
  | toolsListResult (tools : List ToolEntry)
  | callResult (text : String) (isError : Bool)
deriving Repr, DecidableEq

/-- A handler execution oracle: given the tool name and the client state, the
serialized result text or the raised exception's message, the state the
handler leaves behind, and how many remote API calls it issued. -/
def HandlerOracle : Type := String → ClientState → Except String String × ClientState × Nat

/-- `_handle` (`server.py` lines 193-222).  Unknown tools and handler
exceptions during `tools/call` become success-shaped `callResult`s with
`isError = true`; an unrecognized top-level method raises
`ValueError("Method not found: ...")`, and `params["name"]` raises `KeyError`
when absent — both modelled as `.error`. -/
def handle (method : String) (params : CallParams) (exec : HandlerOracle)
    (st : ClientState) : Except String HandleOk × ClientState × Nat :=
  if method = "initialize" then
    (.ok (.initResult (params.protocolVersion.getD "2024-11-05")), st, 0)
  else if method = "tools/list" then
    (.ok (.toolsListResult TOOLS), st, 0)
  else if method = "tools/call" then
    match params.name with
    | none => (.error "KeyError: name", st, 0)
    | some name =>
      if toolNames.contains name then
        match exec name st with
        | (.ok text, st', n) => (.ok (.callResult text false), st', n)
        | (.error e, st', n) =>
          (.ok (.callResult ("Error in " ++ name ++ ": " ++ e) true), st', n)
      else (.ok (.callResult ("Unknown tool: " ++ name) true), st, 0)
  else (.error ("Method not found: " ++ method), st, 0)

/-- A parsed JSON-RPC request line, holding the fields `run` reads:
`msg.get("id")` (absent or JSON `null` → `none`), `msg.get("method", "")`,
`msg.get("params", {})`. -/
structure Msg where
  id : Option Int
  method : String
  params : CallParams
deriving Repr, DecidableEq

/-- The JSON-RPC error object written by `run` when `_handle` raises:
fixed code `-32601` plus the exception's message. -/
structure RpcErr where
  code : Int
  message : String
deriving Repr, DecidableEq

/-- One line written to stdout by `run`: either a `result` or an `error`
envelope for the request's id. -/
structure RpcResponse where
  id : Int
  payload : Except RpcErr HandleOk
deriving Repr, DecidableEq

/-- One iteration of the `run` loop (`server.py` lines 236-265) from the
point where `json.loads` has been attempted on the line: `parsed = none`
models a `json.JSONDecodeError` (log and `continue`); a message without an
id is a notification (`continue`); otherwise `_handle` is dispatched and its
return value — or the exception it raised, as a `-32601` error object — is
written back.  Returns the optional response line, the client state
afterwards, and the number of remote API calls issued. -/
def stepLine (parsed : Option Msg) (exec : HandlerOracle) (st : ClientState) :
    Option RpcResponse × ClientState × Nat :=
  match parsed with
  | none => (none, st, 0)
  | some msg =>
    match msg.id with
    | none => (none, st, 0)
    | some i =>
      match handle msg.method msg.params exec st with
      | (.ok r, st', n) => (some ⟨i, .ok r⟩, st', n)
      | (.error e, st', n) => (some ⟨i, .error ⟨-32601, e⟩⟩, st', n)

/-! ## `client.py`: the "today" aggregation

`_parse_date` normalizes the provider's colon-less `+0000` offset and hands
the string to `datetime.fromisoformat`.  We model `fromisoformat` on the
provider's timestamp shape `YYYY-MM-DDTHH:MM:SS[.f{1,6}][±HH:MM]`, mapping an
offset-carrying (aware) timestamp to its instant in microseconds since the
epoch; strings outside this shape — including naive timestamps, which the
provider never emits — are modelled as unparsable. -/

/-- Read exactly `n` decimal digits, accumulating their value onto `acc`. -/
def readNDigits : Nat → Nat → List Char → Option (Nat × List Char)
  | 0, acc, cs => some (acc, cs)
  | n + 1, acc, cs =>
    match cs with
    | [] => none
    | c :: rest =>
      if c.isDigit then readNDigits n (acc * 10 + (c.toNat - 48)) rest else none

/-- Consume one expected character. -/
def expectChar (c : Char) : List Char → Option (List Char)
  | [] => none
  | x :: rest => if x = c then some rest else none

/-- Read an optional fractional-seconds part (a dot followed by one to six
digits), returning its value in microseconds. -/
def readFrac : List Char → Option (Nat × List Char)
  | '.' :: rest =>
    let p := rest.span Char.isDigit
    if 1 ≤ p.1.length ∧ p.1.length ≤ 6 then
      some ((p.1.foldl (fun a c => a * 10 + (c.toNat - 48)) 0) * 10 ^ (6 - p.1.length), p.2)
    else none
  | cs => some (0, cs)

/-- Read a trailing UTC offset `±HH:MM` (the shape left after
`_parse_date`'s normalization) ending the string, as signed microseconds.
An empty rest — a naive timestamp — is outside the modelled shape. -/
def readOffsetEnd : List Char → Option Int
  | [] => none
  | c :: rest =>
    if c = '+' || c = '-' then
      match readNDigits 2 0 rest with
      | none => none
      | some (hh, r1) =>
        match r1 with
        | ':' :: r2 =>
          match readNDigits 2 0 r2 with
          | none => none
          | some (mm, r3) =>
            if r3 = [] ∧ hh ≤ 23 ∧ mm ≤ 59 then
              let mag : Int := ((hh * 3600 + mm * 60 : Nat) : Int) * 1000000
              some (if c = '-' then -mag else mag)
            else none
        | _ => none
    else none

/-- Whether `y` is a Gregorian leap year. -/
def isLeapYear (y : Nat) : Bool :=
  y % 4 = 0 && (y % 100 != 0 || y % 400 = 0)

/-- Days in month `m` of year `y` (as validated by `datetime`). -/
def daysInMonth (y m : Nat) : Nat :=
  if m = 2 then (if isLeapYear y then 29 else 28)
  else if m = 4 ∨ m = 6 ∨ m = 9 ∨ m = 11 then 30
  else 31

/-- Days from the epoch 1970-01-01 to the civil date `y-m-d`
(Gregorian, proleptic).  All divisions act on non-negative operands for the
dates the parser admits. -/
def daysFromCivil (y m d : Int) : Int :=
  let y2 := if m ≤ 2 then y - 1 else y
  let era := (if 0 ≤ y2 then y2 else y2 - 399) / 400
  let yoe := y2 - era * 400
  let mp := (m + 9) % 12
  let doy := (153 * mp + 2) / 5 + d - 1
  let doe := yoe * 365 + yoe / 4 - yoe / 100 + doy
  era * 146097 + doe - 719468

/-- Microseconds since the epoch of the UTC civil time
`y-mo-d h:mi:s.us`. -/
def civilMicros (y mo d h mi s us : Int) : Int :=
  daysFromCivil y mo d * 86400000000 + h * 3600000000 + mi * 60000000 +
    s * 1000000 + us

/-- The modelled `datetime.fromisoformat`, restricted to aware timestamps of
the provider's shape: the represented instant in microseconds since the
epoch, or `none` when the string does not parse. -/
def parseIso (cs : List Char) : Option Int := do
  let (y, r1) ← readNDigits 4 0 cs
  let r2 ← expectChar '-' r1
  let (mo, r3) ← readNDigits 2 0 r2
  let r4 ← expectChar '-' r3
  let (d, r5) ← readNDigits 2 0 r4
  let r6 ← expectChar 'T' r5
  let (h, r7) ← readNDigits 2 0 r6
  let r8 ← expectChar ':' r7
  let (mi, r9) ← readNDigits 2 0 r8
  let r10 ← expectChar ':' r9
  let (s, r11) ← readNDigits 2 0 r10
  let (us, r12) ← readFrac r11
  let off ← readOffsetEnd r12
  if 1 ≤ mo ∧ mo ≤ 12 ∧ 1 ≤ d ∧ d ≤ daysInMonth y mo ∧ h ≤ 23 ∧ mi ≤ 59 ∧ s ≤ 59 then
    some (civilMicros y mo d h mi s us - off)
  else none

/-- `TickTickClient._parse_date` (`client.py` lines 122-132): falsy input
gives `None`; otherwise the colon-less `+0000` offset is normalized (both
`str.replace` calls replace every occurrence) and the result is parsed. -/
def parse_date : Option String → Option Int
  | none => none
  | some s =>
    if s = "" then none
    else parseIso ((s.replace "+0000" "+00:00").replace "+00:00:00" "+00:00").data

/-- The fields of a remote task record that `get_today_tasks` reads, plus the
title as an opaque payload. -/
structure TTask where
  id : String
  title : String
  status : Option Nat
  dueDate : Option String
deriving Repr, DecidableEq

/-- A listed project (only its `id` is read). -/
structure TProject where
  id : String
deriving Repr, DecidableEq

/-- The `/project/{pid}/data` payload field read by the aggregation
(`data.get("tasks", [])`). -/
structure ProjectData where
  tasks : List TTask
deriving Repr, DecidableEq

/-- The sort key `t.get("dueDate") or ""` of `client.py` line 162. -/
def dueKey (t : TTask) : String := t.dueDate.getD ""

/-- Ascending comparison on raw due-date strings; `list.sort` is stable, so
the final sort is the stable insertion sort by this relation. -/
def leDue (a b : TTask) : Prop := dueKey a ≤ dueKey b

instance : DecidableRel leDue :=
  fun a b => inferInstanceAs (Decidable (dueKey a ≤ dueKey b))

instance : IsTotal TTask leDue := ⟨fun a b => le_total (dueKey a) (dueKey b)⟩

instance : IsTrans TTask leDue := ⟨fun _ _ _ h₁ h₂ => le_trans h₁ h₂⟩

/-- The inner `for task in data.get("tasks", [])` loop of `get_today_tasks`
(`client.py` lines 151-160): skip ids already seen, mark the id seen, skip
completed tasks (`status` defaulting to `0`), keep tasks whose due date
parses and is `≤ end_of_today`. -/
def innerLoop (endOfToday : Int) :
    List TTask → List String → List TTask → List TTask × List String
  | [], seen, acc => (acc, seen)
  | t :: ts, seen, acc =>
    if t.id ∈ seen then innerLoop endOfToday ts seen acc
    else
      let seen' := t.id :: seen
      if t.status.getD 0 = 2 then innerLoop endOfToday ts seen' acc
      else
        match parse_date t.dueDate with
        | some due =>
          if due ≤ endOfToday then innerLoop endOfToday ts seen' (acc ++ [t])
          else innerLoop endOfToday ts seen' acc
        | none => innerLoop endOfToday ts seen' acc

/-- The outer `for pid in project_ids` loop (`client.py` lines 146-160):
a failing `/project/{pid}/data` fetch skips that project. -/
def outerLoop (fetch : String → Except Unit ProjectData) (endOfToday : Int) :
    List String → List String → List TTask → List TTask × List String
  | [], seen, acc => (acc, seen)
  | pid :: rest, seen, acc =>
    match fetch pid with
    | .error _ => outerLoop fetch endOfToday rest seen acc
    | .ok d =>
      let p := innerLoop endOfToday d.tasks seen acc
      outerLoop fetch endOfToday rest p.2 p.1

/-- `get_today_tasks` (`client.py` lines 134-163).  `todayY/M/D` is the
current UTC civil date (`datetime.now(timezone.utc)`), so `end_of_today` is
23:59:59.999999 UTC of that day; `projectsResp` is the `/project` listing
(`or []` turns a `None`/empty payload into `[]`); `inboxId` is the value
`get_inbox_id` produced; `fetch` is the per-project data oracle. -/
def get_today_tasks (todayY todayM todayD : Int)
    (projectsResp : Option (List TProject)) (inboxId : String)
    (fetch : String → Except Unit ProjectData) : List TTask :=
  let endOfToday := civilMicros todayY todayM todayD 23 59 59 999999
  let projects := projectsResp.getD []
  let pids := inboxId :: projects.map TProject.id
  let p := outerLoop fetch endOfToday pids [] []
  List.insertionSort leDue p.1

/-! Declarative counterpart of the aggregation, used to characterize it. -/

/-- The concatenated task stream of the projects whose fetch succeeded, in
traversal order. -/
def successTasks (fetch : String → Except Unit ProjectData) :
    List String → List TTask
  | [] => []
  | pid :: rest =>
    (match fetch pid with | .ok d => d.tasks | .error _ => []) ++
      successTasks fetch rest

/-- Deduplication by task id, first occurrence winning, relative to the ids
already `seen`. -/
def dedupById : List TTask → List String → List TTask
  | [], _ => []
  | t :: ts, seen =>
    if t.id ∈ seen then dedupById ts seen else t :: dedupById ts (t.id :: seen)

/-- The ids `seen` after scanning a task stream. -/
def addSeen : List TTask → List String → List String
  | [], seen => seen
  | t :: ts, seen =>
    if t.id ∈ seen then addSeen ts seen else addSeen ts (t.id :: seen)

/-- The filter the aggregation applies to a deduplicated task: not completed,
and due at or before the end of the current UTC day. -/
def keepToday (endOfToday : Int) (t : TTask) : Bool :=
  (t.status.getD 0 != 2) &&
    (match parse_date t.dueDate with
     | some due => decide (due ≤ endOfToday)
     | none => false)

theorem innerLoop_eq (e : Int) (ts : List TTask) (seen : List String)
    (acc : List TTask) :
    innerLoop e ts seen acc =
      (acc ++ (dedupById ts seen).filter (keepToday e), addSeen ts seen) := by
  induction ts generalizing seen acc with
  | nil => simp [innerLoop, dedupById, addSeen]
  | cons t ts ih =>
    by_cases hmem : t.id ∈ seen
    · simp [innerLoop, dedupById, addSeen, hmem, ih]
    · by_cases hst : t.status.getD 0 = 2
      · have hk : keepToday e t = false := by simp [keepToday, hst]
        simp [innerLoop, dedupById, addSeen, hmem, hst, hk, ih]
      · cases hp : parse_date t.dueDate with
        | none =>
          have hk : keepToday e t = false := by simp [keepToday, hp]
          simp [innerLoop, dedupById, addSeen, hmem, hst, hp, hk, ih]
        | some due =>
          by_cases hdue : due ≤ e
          · have hk : keepToday e t = true := by simp [keepToday, hst, hp, hdue]
            simp [innerLoop, dedupById, addSeen, hmem, hst, hp, hdue, hk, ih,
              List.append_assoc]
          · have hk : keepToday e t = false := by simp [keepToday, hp, hdue]
            simp [innerLoop, dedupById, addSeen, hmem, hst, hp, hdue, hk, ih]

theorem dedupById_append (xs ys : List TTask) (seen : List String) :
    dedupById (xs ++ ys) seen =
      dedupById xs seen ++ dedupById ys (addSeen xs seen) := by
  induction xs generalizing seen with
  | nil => simp [dedupById, addSeen]
  | cons x xs ih =>
    by_cases hmem : x.id ∈ seen
    · simp [dedupById, addSeen, hmem, ih]
    · simp [dedupById, addSeen, hmem, ih]

theorem addSeen_append (xs ys : List TTask) (seen : List String) :
    addSeen (xs ++ ys) seen = addSeen ys (addSeen xs seen) := by
  induction xs generalizing seen with
  | nil => simp [addSeen]
  | cons x xs ih =>
    by_cases hmem : x.id ∈ seen
    · simp [addSeen, hmem, ih]
    · simp [addSeen, hmem, ih]

theorem outerLoop_eq (fetch : String → Except Unit ProjectData) (e : Int)
    (pids seen : List String) (acc : List TTask) :
    outerLoop fetch e pids seen acc =
      (acc ++ (dedupById (successTasks fetch pids) seen).filter (keepToday e),
        addSeen (successTasks fetch pids) seen) := by
  induction pids generalizing seen acc with
  | nil => simp [outerLoop, successTasks, dedupById, addSeen]
  | cons pid rest ih =>
    cases hf : fetch pid with
    | error u => simp [outerLoop, successTasks, hf, ih]
    | ok d =>
      simp [outerLoop, successTasks, hf, innerLoop_eq, ih, dedupById_append,
        addSeen_append, List.filter_append, List.append_assoc]

/-! ## The brief-injection helper

`tests/test_brief.py` imports `_inject_brief` from `ticktick_mcp.server`, but
the server variant under `src/` does not define it: only its tests are
present.  The operation is therefore modelled from the spec. -/

/-- The characters of the opening `<brief>` marker. -/
def briefOpen : List Char := ['<', 'b', 'r', 'i', 'e', 'f', '>']

/-- The characters of the closing `</brief>` marker. -/
def briefClose : List Char := ['<', '/', 'b', 'r', 'i', 'e', 'f', '>']

/-- `<brief>x</brief>` as a character list. -/
def briefTag (x : List Char) : List Char := briefOpen ++ x ++ briefClose

/-- Split a character list at the first occurrence of `pat` (non-empty),
returning the text before it and the text after it. -/
def splitOnFirst (pat : List Char) : List Char → Option (List Char × List Char)
  | [] => none
  | c :: rest =>
    if pat.isPrefixOf (c :: rest) then some ([], (c :: rest).drop pat.length)
    else
      match splitOnFirst pat rest with
      | some p => some (c :: p.1, p.2)
      | none => none

theorem isPrefixOf_append_drop (pat : List Char) (l : List Char)
    (h : pat.isPrefixOf l = true) : l = pat ++ l.drop pat.length := by
  induction pat generalizing l with
  | nil => simp
  | cons p ps ih =>
    cases l with
    | nil => simp [List.isPrefixOf] at h
    | cons c cs =>
      simp only [List.isPrefixOf, Bool.and_eq_true, beq_iff_eq] at h
      obtain ⟨h1, h2⟩ := h
      simpa [h1] using ih cs h2

theorem splitOnFirst_eq (pat s b a : List Char)
    (h : splitOnFirst pat s = some (b, a)) : s = b ++ pat ++ a := by
  induction s generalizing b with
  | nil => simp [splitOnFirst] at h
  | cons c rest ih =>
    rw [splitOnFirst] at h
    split at h
    · next hpre =>
      obtain ⟨hb, ha⟩ := Prod.mk.injEq .. ▸ Option.some.injEq .. ▸ h
      subst hb
      simpa [← ha] using isPrefixOf_append_drop pat (c :: rest) hpre
    · next hpre =>
      cases hs : splitOnFirst pat rest with
      | none => rw [hs] at h; exact absurd h (by simp)
      | some p =>
        rw [hs] at h
        obtain ⟨hb, ha⟩ := Prod.mk.injEq .. ▸ Option.some.injEq .. ▸ h
        subst hb
        have := ih p.1 (by rw [hs, ← ha])
        simp [this]

/-- Find the first `<brief>...</brief>` occurrence: the text before it, the
value inside it, and the text after it. -/
def findTagSplit (s : List Char) : Option (List Char × List Char × List Char) :=
  match splitOnFirst briefOpen s with
  | none => none
  | some p =>
    match splitOnFirst briefClose p.2 with
    | none => none
    | some q => some (p.1, q.1, q.2)

theorem findTagSplit_eq (s b v a : List Char)
    (h : findTagSplit s = some (b, v, a)) :
    s = b ++ briefOpen ++ v ++ briefClose ++ a := by
  cases h1 : splitOnFirst briefOpen s with
  | none => simp [findTagSplit, h1] at h
  | some p =>
    cases h2 : splitOnFirst briefClose p.2 with
    | none => simp [findTagSplit, h1, h2] at h
    | some q =>
      simp only [findTagSplit, h1, h2, Option.some.injEq, Prod.mk.injEq] at h
      obtain ⟨hb, hv, ha⟩ := h
      have e1 := splitOnFirst_eq _ _ _ _ h1
      have e2 := splitOnFirst_eq _ _ _ _ h2
      rw [e1, e2, hb, hv, ha]
      simp

/-- Replace every `<brief>...</brief>` occurrence, scanned left to right,
by `<brief>x</brief>` (the semantics of a global non-greedy regex
substitution). -/
def replaceAllTags (x : List Char) (s : List Char) : List Char :=
  match h : findTagSplit s with
  | none => s
  | some p => p.1 ++ briefTag x ++ replaceAllTags x p.2.2
termination_by s.length
decreasing_by
  have := findTagSplit_eq s p.1 p.2.1 p.2.2 h
  subst this
  simp [briefOpen, briefClose]
  omega

/-- Modelled from the spec: the `_inject_brief` operation of `server.py`
(absent from the `src/` listing; exercised by `tests/test_brief.py`).
"Injection ... replaces all existing `<brief>...</brief>` occurrences with
the new value, or prepends a new tag if none exists and existing content is
present, or returns just the tag if content is empty/absent" — with the
prepend separator `"\n"` fixed by `test_inject_brief_prepends_to_content`. -/
def injectBrief (x : List Char) (content : Option (List Char)) : List Char :=
  match content with
  | none => briefTag x
  | some c =>
    if c = [] then briefTag x
    else if (findTagSplit c).isSome then replaceAllTags x c
    else briefTag x ++ '\n' :: c

theorem isPrefixOf_self_append (pat r : List Char) :
    pat.isPrefixOf (pat ++ r) = true := by
  induction pat with
  | nil => simp [List.isPrefixOf]
  | cons p ps ih => simp [List.isPrefixOf, ih]

/-- Whether `pat` occurs as a contiguous substring of `s` (the scanning
predicate underlying `splitOnFirst`: some position carries `pat` as a
prefix). -/
def occursIn (pat : List Char) : List Char → Bool
  | [] => false
  | c :: rest => pat.isPrefixOf (c :: rest) || occursIn pat rest

theorem splitOnFirst_eq_none (pat s : List Char) (h : occursIn pat s = false) :
    splitOnFirst pat s = none := by
  induction s with
  | nil => rfl
  | cons c cs ih =>
    simp only [occursIn, Bool.or_eq_false_iff] at h
    rw [splitOnFirst, h.1, if_neg Bool.false_ne_true, ih h.2]

/-- Both brief markers hold their only opening angle bracket at position 0:
a copy of `t` that reaches into a following `'<' :: r'` must already have
ended before the `'<'` when `t` itself has no `'<'`. -/
theorem isPrefixOf_of_append_head (t : List Char) (htl : '<' ∉ t) :
    ∀ cs r' : List Char, t.isPrefixOf (cs ++ '<' :: r') = true →
      t.isPrefixOf cs = true := by
  induction t with
  | nil => intro cs r' _; cases cs <;> rfl
  | cons a t' ih =>
    intro cs r' h
    have ha : ('<' : Char) ≠ a := fun e => htl (e ▸ List.mem_cons_self a t')
    have htl' : '<' ∉ t' := fun m => htl (List.mem_cons_of_mem _ m)
    cases cs with
    | nil =>
      simp only [List.nil_append, List.isPrefixOf, Bool.and_eq_true,
        beq_iff_eq] at h
      exact absurd h.1.symm ha
    | cons b cs' =>
      simp only [List.cons_append, List.isPrefixOf, Bool.and_eq_true,
        beq_iff_eq] at h
      simp only [List.isPrefixOf, Bool.and_eq_true, beq_iff_eq]
      exact ⟨h.1, ih htl' cs' r' h.2⟩

/-- When the marker `'<' :: t` has no further `'<'` and does not occur in
`s`, the scan of `s ++ ('<' :: t) ++ r` finds the explicit marker: no
occurrence can lie in `s` or straddle the boundary. -/
theorem splitOnFirst_marker (t s r : List Char) (htl : '<' ∉ t)
    (h : occursIn ('<' :: t) s = false) :
    splitOnFirst ('<' :: t) (s ++ ('<' :: t) ++ r) = some (s, r) := by
  induction s with
  | nil =>
    have hpre := isPrefixOf_self_append ('<' :: t) r
    simp only [List.nil_append, List.cons_append] at hpre ⊢
    rw [splitOnFirst, if_pos hpre]
    simp only [List.length_cons, List.drop_succ_cons, List.drop_left]
  | cons c cs ih =>
    simp only [occursIn, Bool.or_eq_false_iff] at h
    obtain ⟨h1, h2⟩ := h
    have hpre : List.isPrefixOf ('<' :: t) (c :: (cs ++ ('<' :: t) ++ r)) = false := by
      cases hx : List.isPrefixOf ('<' :: t) (c :: (cs ++ ('<' :: t) ++ r)) with
      | false => rfl
      | true =>
        exfalso
        simp only [List.isPrefixOf, Bool.and_eq_true, beq_iff_eq] at hx
        obtain ⟨hc, hts⟩ := hx
        have hts2 : t.isPrefixOf (cs ++ '<' :: (t ++ r)) = true := by
          simpa [List.append_assoc] using hts
        have hcs := isPrefixOf_of_append_head t htl cs (t ++ r) hts2
        have hpat : List.isPrefixOf ('<' :: t) (c :: cs) = true := by
          simp only [List.isPrefixOf, Bool.and_eq_true, beq_iff_eq]
          exact ⟨hc, hcs⟩
        simp [hpat] at h1
    simp only [List.cons_append]
    rw [splitOnFirst]
    simp only [List.cons_append] at hpre
    rw [hpre, if_neg Bool.false_ne_true]
    have := ih h2
    simp only [List.cons_append] at this
    rw [this]

theorem splitOnFirst_briefOpen (s r : List Char)
    (h : occursIn briefOpen s = false) :
    splitOnFirst briefOpen (s ++ briefOpen ++ r) = some (s, r) :=
  splitOnFirst_marker _ s r (by decide) h

theorem splitOnFirst_briefClose (s r : List Char)
    (h : occursIn briefClose s = false) :
    splitOnFirst briefClose (s ++ briefClose ++ r) = some (s, r) :=
  splitOnFirst_marker _ s r (by decide) h

theorem findTagSplit_eq_none (s : List Char)
    (h : occursIn briefOpen s = false) : findTagSplit s = none := by
  unfold findTagSplit
  rw [splitOnFirst_eq_none briefOpen s h]

theorem replaceAllTags_of_none (x s : List Char) (h : findTagSplit s = none) :
    replaceAllTags x s = s := by
  conv_lhs => rw [replaceAllTags]
  split
  · rfl
  · next p heq => rw [h] at heq; cases heq

theorem replaceAllTags_of_some (x s b v a : List Char)
    (h : findTagSplit s = some (b, v, a)) :
    replaceAllTags x s = b ++ briefTag x ++ replaceAllTags x a := by
  conv_lhs => rw [replaceAllTags]
  split
  · next heq => rw [h] at heq; cases heq
  · next p heq =>
    rw [h] at heq
    cases heq
    rfl

/-- Content holding a sequence of `<brief>` occurrences: for each pair
`(v, seg)` the tagged value `v` followed by the untagged segment `seg`. -/
def buildBrief (pairs : List (List Char × List Char)) : List Char :=
  match pairs with
  | [] => []
  | p :: rest => briefTag p.1 ++ p.2 ++ buildBrief rest

theorem findTagSplit_decomp (s0 v tail : List Char)
    (h0 : occursIn briefOpen s0 = false)
    (hv : occursIn briefClose v = false) :
    findTagSplit (s0 ++ (briefTag v ++ tail)) = some (s0, v, tail) := by
  have ho : ∀ r, splitOnFirst briefOpen (s0 ++ (briefOpen ++ r)) = some (s0, r) :=
    fun r => by rw [← List.append_assoc]; exact splitOnFirst_briefOpen s0 r h0
  have hcl : ∀ r, splitOnFirst briefClose (v ++ (briefClose ++ r)) = some (v, r) :=
    fun r => by rw [← List.append_assoc]; exact splitOnFirst_briefClose v r hv
  simp [findTagSplit, briefTag, List.append_assoc, ho, hcl]

/-- Replacing over the canonical occurrence decomposition of a content with
at least one complete tag: a prefix `s0` not containing the opening marker,
pairs of tagged values (no closing marker inside) and separators (no opening
marker inside), a last tagged value, and a remainder with no complete tag
(it may still hold a dangling opening marker). -/
theorem replaceAllTags_decomp (x : List Char)
    (pairs : List (List Char × List Char)) (s0 vlast rest : List Char)
    (h0 : occursIn briefOpen s0 = false)
    (hp : ∀ p ∈ pairs, occursIn briefClose p.1 = false ∧
      occursIn briefOpen p.2 = false)
    (hvl : occursIn briefClose vlast = false)
    (hrest : findTagSplit rest = none) :
    replaceAllTags x (s0 ++ buildBrief pairs ++ briefTag vlast ++ rest) =
      s0 ++ buildBrief (pairs.map fun p => (x, p.2)) ++ briefTag x ++ rest := by
  induction pairs generalizing s0 with
  | nil =>
    have e : s0 ++ buildBrief [] ++ briefTag vlast ++ rest =
        s0 ++ (briefTag vlast ++ rest) := by
      simp [buildBrief]
    rw [e, replaceAllTags_of_some x _ _ _ _
        (findTagSplit_decomp s0 vlast rest h0 hvl),
      replaceAllTags_of_none x rest hrest]
    simp [buildBrief]
  | cons p ps ih =>
    obtain ⟨hv, hseg⟩ := hp p (List.mem_cons_self p ps)
    have hps : ∀ q ∈ ps, occursIn briefClose q.1 = false ∧
        occursIn briefOpen q.2 = false :=
      fun q m => hp q (List.mem_cons_of_mem _ m)
    have e : s0 ++ buildBrief (p :: ps) ++ briefTag vlast ++ rest =
        s0 ++ (briefTag p.1 ++ (p.2 ++ buildBrief ps ++ briefTag vlast ++ rest)) := by
      simp [buildBrief, List.append_assoc]
    rw [e, replaceAllTags_of_some x _ _ _ _
        (findTagSplit_decomp s0 p.1 _ h0 hv),
      ih p.2 hseg hps]
    simp [buildBrief, List.append_assoc]

/-! ## Claim theorems -/

/-- C8: both token exchange operations produce a TokenSet with
`expires_at = now_ms + expires_in * 1000`, defaulting `expires_in` to 3600
when the response omits it; the refresh exchange preserves the prior refresh
token when the response omits a new one (the code exchange takes no prior
refresh token — its result simply carries the response's, i.e. `none` when
omitted). -/
theorem claim_C8 (now_ms : Int) (status : Nat) (resp : TokenResponse)
    (prior : String) (h : status < 400) :
    (∃ t, exchange_code now_ms status resp = .ok t ∧
      t.expires_at = some (now_ms + (resp.expires_in.getD 3600) * 1000) ∧
      (resp.expires_in = none → t.expires_at = some (now_ms + 3600 * 1000)) ∧
      t.refresh_token = resp.refresh_token) ∧
    (∃ u, refresh_access_token prior now_ms status resp = .ok u ∧
      u.expires_at = some (now_ms + (resp.expires_in.getD 3600) * 1000) ∧
      (resp.expires_in = none → u.expires_at = some (now_ms + 3600 * 1000)) ∧
      (resp.refresh_token = none → u.refresh_token = some prior)) := by
  have hn : ¬ status ≥ 400 := Nat.not_le.mpr h
  constructor
  · refine ⟨_, by rw [exchange_code, if_neg hn], rfl, ?_, rfl⟩
    intro he
    simp [he]
  · refine ⟨_, by rw [refresh_access_token, if_neg hn], rfl, ?_, ?_⟩
    · intro he
      simp [he]
    · intro hr
      simp [orFalsy, hr]

theorem claim_C8_witness :
    (200 : Nat) < 400 ∧
    ((∃ t, exchange_code 5000 200 ⟨"acc", none, none, none, none⟩ = .ok t ∧
      t.expires_at = some (5000 +
        ((⟨"acc", none, none, none, none⟩ : TokenResponse).expires_in.getD 3600) * 1000) ∧
      ((⟨"acc", none, none, none, none⟩ : TokenResponse).expires_in = none →
        t.expires_at = some (5000 + 3600 * 1000)) ∧
      t.refresh_token = (⟨"acc", none, none, none, none⟩ : TokenResponse).refresh_token) ∧
    (∃ u, refresh_access_token "prior" 5000 200 ⟨"acc", none, none, none, none⟩ = .ok u ∧
      u.expires_at = some (5000 +
        ((⟨"acc", none, none, none, none⟩ : TokenResponse).expires_in.getD 3600) * 1000) ∧
      ((⟨"acc", none, none, none, none⟩ : TokenResponse).expires_in = none →
        u.expires_at = some (5000 + 3600 * 1000)) ∧
      ((⟨"acc", none, none, none, none⟩ : TokenResponse).refresh_token = none →
        u.refresh_token = some "prior"))) :=
  ⟨by decide, claim_C8 5000 200 ⟨"acc", none, none, none, none⟩ "prior" (by decide)⟩

/-- C2: with no environment access token, a persisted TokenSet whose
`expires_at` lies more than 60 seconds in the past and which carries a
refresh token, plus both client credentials, `get_access_token` performs
exactly one refresh exchange (and no code exchange), persists the refreshed
TokenSet, and returns the new access token. -/
theorem claim_C2 (envRefresh envAuthCode : Option String) (t : TokenSet)
    (e now_ms : Int) (r cid cs : String) (refreshStatus : Nat)
    (refreshResp : TokenResponse) (exchangeStatus : Nat)
    (exchangeResp : TokenResponse)
    (hexp : t.expires_at = some e) (hez : e ≠ 0) (hpast : e < now_ms - 60000)
    (hr : t.refresh_token = some r) (hrne : r ≠ "")
    (hok : refreshStatus < 400) (hcid : cid ≠ "") (hcs : cs ≠ "") :
    ∃ nt, refresh_access_token r now_ms refreshStatus refreshResp = .ok nt ∧
      get_access_token none envRefresh envAuthCode (some cid) (some cs)
          (some t) now_ms refreshStatus refreshResp exchangeStatus exchangeResp =
        { result := .ok refreshResp.access_token, savedTokens := some nt
          refreshCalls := 1, exchangeCalls := 0 } := by
  have hn : ¬ refreshStatus ≥ 400 := Nat.not_le.mpr hok
  have hgt : now_ms > e - 60000 := by omega
  refine ⟨_, by rw [refresh_access_token, if_neg hn], ?_⟩
  simp [get_access_token, truthyStr, truthyInt, hexp, hez, hr, hrne, hcid, hcs,
    hgt, refresh_access_token, if_neg hn]

theorem claim_C2_witness :
    ((1000000 : Int) ≠ 0 ∧ (1000000 : Int) < 2000000 - 60000 ∧ "r" ≠ "" ∧
      (200 : Nat) < 400 ∧ "cid" ≠ "" ∧ "sec" ≠ "") ∧
    ∃ nt, refresh_access_token "r" 2000000 200
        ⟨"newtok", some "r2", some "bearer", some 7200, none⟩ = .ok nt ∧
      get_access_token none none none (some "cid") (some "sec")
          (some ⟨"old", some "r", none, some 1000000, none⟩) 2000000 200
          ⟨"newtok", some "r2", some "bearer", some 7200, none⟩ 500
          ⟨"x", none, none, none, none⟩ =
        { result := .ok (⟨"newtok", some "r2", some "bearer", some 7200,
            none⟩ : TokenResponse).access_token
          savedTokens := some nt, refreshCalls := 1, exchangeCalls := 0 } :=
  ⟨by decide,
    claim_C2 none none ⟨"old", some "r", none, some 1000000, none⟩ 1000000
      2000000 "r" "cid" "sec" 200 ⟨"newtok", some "r2", some "bearer", some 7200, none⟩
      500 ⟨"x", none, none, none, none⟩ rfl (by decide) (by decide) rfl
      (by decide) (by decide) (by decide) (by decide)⟩

/-- C1 (code bug): for every request whose first attempt answers 401 —
whatever the on-disk TokenSet, the credentials, and whatever the retried
call would have answered — `_request` performs no retry and raises the
original 401.  The source intends a refresh-and-retry (`# On 401, try
refresh`), but `refresh_access_token` is an `async def` invoked without
`await` (`client.py` line 48), so no refresh exchange ever executes:
serializing the resulting coroutine object raises a `TypeError` that the
blanket `except` swallows, and the 401 stands even when the retry would have
returned 200. -/
theorem claim_C1 (method endpoint : String) (firstData : Option String)
    (disk : Option TokenSet) (client_id client_secret : Option String)
    (retryStatus : Nat) (retryData : Option String) :
    request method endpoint 401 firstData disk client_id client_secret
        retryStatus retryData =
      { result := .error (401, method, endpoint), retries := 0,
        savedTokens := none } := by
  have ht : ∀ (rs : Nat) (rd : Option String), tryRefreshRetry rs rd =
      .error "TypeError: Object of type coroutine is not JSON serializable" :=
    fun _ _ => rfl
  simp [request, ht]

/-- C7: once a (non-empty) inbox id has been discovered, every later
`get_inbox_id` call returns the cached id with no remote call, and a failure
of the best-effort probe-task deletion never surfaces: the discovered id is
returned regardless of the delete outcome. -/
theorem claim_C7 (st : ClientState) (temp : CreatedTask)
    (deleteRes : Except String Unit)
    (h0 : st.cachedInboxId = none) (hne : temp.projectId ≠ "") :
    (get_inbox_id (.ok temp) deleteRes st).result = .ok temp.projectId ∧
    (get_inbox_id (.ok temp) deleteRes st).createCalls = 1 ∧
    (get_inbox_id (.ok temp) deleteRes st).state.cachedInboxId =
      some temp.projectId ∧
    (∀ (createRes2 : Except String CreatedTask)
        (deleteRes2 : Except String Unit),
      get_inbox_id createRes2 deleteRes2 (get_inbox_id (.ok temp) deleteRes st).state =
        { result := .ok temp.projectId
          state := (get_inbox_id (.ok temp) deleteRes st).state
          createCalls := 0, deleteCalls := 0, deleteError := none }) := by
  refine ⟨?_, ?_, ?_, ?_⟩ <;>
    simp [get_inbox_id, truthyStr, h0, hne]

theorem claim_C7_witness :
    ((⟨none, none⟩ : ClientState).cachedInboxId = none ∧
      ("inbox123" : String) ≠ "") ∧
    (get_inbox_id (.ok ⟨"inbox123", "t1"⟩) (.error "delete failed")
        ⟨none, none⟩).result = .ok "inbox123" ∧
    (get_inbox_id (.ok ⟨"inbox123", "t1"⟩) (.error "delete failed")
        ⟨none, none⟩).createCalls = 1 ∧
    (get_inbox_id (.ok ⟨"inbox123", "t1"⟩) (.error "delete failed")
        ⟨none, none⟩).state.cachedInboxId = some "inbox123" ∧
    (∀ (createRes2 : Except String CreatedTask)
        (deleteRes2 : Except String Unit),
      get_inbox_id createRes2 deleteRes2
          (get_inbox_id (.ok ⟨"inbox123", "t1"⟩) (.error "delete failed")
            ⟨none, none⟩).state =
        { result := .ok "inbox123"
          state := (get_inbox_id (.ok ⟨"inbox123", "t1"⟩)
            (.error "delete failed") ⟨none, none⟩).state
          createCalls := 0, deleteCalls := 0, deleteError := none }) :=
  ⟨⟨rfl, by decide⟩,
    claim_C7 ⟨none, none⟩ ⟨"inbox123", "t1"⟩ (.error "delete failed") rfl
      (by decide)⟩

/-- C3: the today aggregation equals the declarative pipeline — across the
inbox and every listed project, in traversal order, projects whose fetch
fails contribute nothing, the task stream is deduplicated by id with the
first occurrence winning, completed tasks (status 2) and tasks whose due
date does not parse to an instant at or before 23:59:59.999999 UTC of the
current day are dropped, and the result is the stable ascending sort by the
raw due-date string — which is in particular sorted under `leDue`. -/
theorem claim_C3 (todayY todayM todayD : Int)
    (projectsResp : Option (List TProject)) (inboxId : String)
    (fetch : String → Except Unit ProjectData) :
    get_today_tasks todayY todayM todayD projectsResp inboxId fetch =
      List.insertionSort leDue
        ((dedupById
          (successTasks fetch (inboxId :: (projectsResp.getD []).map TProject.id))
          []).filter
            (keepToday (civilMicros todayY todayM todayD 23 59 59 999999))) ∧
    (get_today_tasks todayY todayM todayD projectsResp inboxId fetch).Sorted
      leDue := by
  constructor
  · simp [get_today_tasks, outerLoop_eq]
  · have h : get_today_tasks todayY todayM todayD projectsResp inboxId fetch =
        List.insertionSort leDue
          (outerLoop fetch (civilMicros todayY todayM todayD 23 59 59 999999)
            (inboxId :: (projectsResp.getD []).map TProject.id) [] []).1 := rfl
    rw [h]
    exact List.sorted_insertionSort leDue _

/-- C4: for id-carrying requests, an unknown tool name and a handler
exception during `tools/call` both produce a success-shaped result with
`isError = true` and a human-readable message (never a JSON-RPC error
object), and the loop answers instead of crashing; a request whose
top-level method is none of initialize / tools/list / tools/call gets a
JSON-RPC error object with the fixed code `-32601`. -/
theorem claim_C4 (i : Int) (params : CallParams) (exec : HandlerOracle)
    (st : ClientState) :
    (∀ name, params.name = some name → toolNames.contains name = false →
      stepLine (some ⟨some i, "tools/call", params⟩) exec st =
        (some ⟨i, .ok (.callResult ("Unknown tool: " ++ name) true)⟩, st, 0)) ∧
    (∀ name e st2 n, params.name = some name → toolNames.contains name = true →
      exec name st = (.error e, st2, n) →
      stepLine (some ⟨some i, "tools/call", params⟩) exec st =
        (some ⟨i, .ok (.callResult ("Error in " ++ name ++ ": " ++ e) true)⟩,
          st2, n)) ∧
    (∀ method, method ≠ "initialize" → method ≠ "tools/list" →
      method ≠ "tools/call" →
      stepLine (some ⟨some i, method, params⟩) exec st =
        (some ⟨i, .error ⟨-32601, "Method not found: " ++ method⟩⟩, st, 0)) := by
  refine ⟨?_, ?_, ?_⟩
  · intro name hname hmem
    have hmem2 : name ∉ toolNames := by simpa using hmem
    simp [stepLine, handle, hname, hmem2]
  · intro name e st2 n hname hmem hexec
    have hmem2 : name ∈ toolNames := by simpa using hmem
    simp [stepLine, handle, hname, hmem2, hexec]
  · intro method h1 h2 h3
    simp [stepLine, handle, h1, h2, h3]

theorem claim_C4_witness :
    ((⟨none, some "nonexistent_tool"⟩ : CallParams).name =
        some "nonexistent_tool" ∧
      toolNames.contains "nonexistent_tool" = false) ∧
    stepLine (some ⟨some 1, "tools/call", ⟨none, some "nonexistent_tool"⟩⟩)
        (fun _ s => (.ok "ok", s, 0)) ⟨none, none⟩ =
      (some ⟨1, .ok (.callResult ("Unknown tool: " ++ "nonexistent_tool") true)⟩,
        ⟨none, none⟩, 0) :=
  ⟨⟨rfl, by decide⟩,
    (claim_C4 1 ⟨none, some "nonexistent_tool"⟩ (fun _ s => (.ok "ok", s, 0))
      ⟨none, none⟩).1 "nonexistent_tool" rfl (by decide)⟩

/-- C5: a line that fails JSON parsing produces no response at all, and a
parsed message lacking an id field is never answered. -/
theorem claim_C5 (exec : HandlerOracle) (st : ClientState) :
    (stepLine none exec st).1 = none ∧
    (∀ msg : Msg, msg.id = none → (stepLine (some msg) exec st).1 = none) := by
  refine ⟨rfl, ?_⟩
  intro msg h
  simp [stepLine, h]

theorem claim_C5_witness :
    ((⟨none, "tools/list", ⟨none, none⟩⟩ : Msg).id = none) ∧
    (stepLine none (fun _ s => (.ok "ok", s, 3)) ⟨none, none⟩).1 = none ∧
    (stepLine (some ⟨none, "tools/list", ⟨none, none⟩⟩)
      (fun _ s => (.ok "ok", s, 3)) ⟨none, none⟩).1 = none :=
  ⟨rfl, (claim_C5 (fun _ s => (.ok "ok", s, 3)) ⟨none, none⟩).1,
    (claim_C5 (fun _ s => (.ok "ok", s, 3)) ⟨none, none⟩).2
      ⟨none, "tools/list", ⟨none, none⟩⟩ rfl⟩

/-- C6 (claim as frozen is false): `get_today` is not among the registered
tool names — the server variant under `src/` never registers it, although
the client implements `get_today_tasks`. -/
theorem counterexample_C6 : ¬ ("get_today" ∈ toolNames) := by decide

/-- C6 (amended): `tools/list` enumerates the static registry, whose names
are exactly the fourteen tools below — the claim's list without
`get_today`. -/
theorem claim_C6 :
    (∀ (params : CallParams) (exec : HandlerOracle) (st : ClientState),
      handle "tools/list" params exec st =
        (.ok (.toolsListResult TOOLS), st, 0)) ∧
    toolNames =
      ["get_inbox", "get_inbox_id", "list_projects", "get_project",
        "get_project_with_data", "create_project", "update_project",
        "delete_project", "get_task", "create_task", "update_task",
        "complete_task", "delete_task", "batch_create_tasks"] := by
  constructor
  · intro params exec st
    simp [handle]
  · rfl

/-- C10: a parsed message without an id triggers no dispatch whatsoever —
for every handler oracle the response is absent, no remote call is issued,
and the client state (cached access token and cached inbox id) is
unchanged — even when the message's method is `tools/call`. -/
theorem claim_C10 (msg : Msg) (exec : HandlerOracle) (st : ClientState)
    (h : msg.id = none) :
    stepLine (some msg) exec st = (none, st, 0) := by
  simp [stepLine, h]

theorem claim_C10_witness :
    ((⟨none, "tools/call", ⟨none, some "delete_project"⟩⟩ : Msg).id = none) ∧
    stepLine (some ⟨none, "tools/call", ⟨none, some "delete_project"⟩⟩)
        (fun _ s => (.ok "deleted", ⟨some "tok", some "inbox9"⟩, 7))
        ⟨none, none⟩ =
      (none, ⟨none, none⟩, 0) :=
  ⟨rfl,
    claim_C10 ⟨none, "tools/call", ⟨none, some "delete_project"⟩⟩
      (fun _ s => (.ok "deleted", ⟨some "tok", some "inbox9"⟩, 7))
      ⟨none, none⟩ rfl⟩

/-- C9 (modelled from the spec, `_inject_brief`): injecting a brief into
empty or absent content yields exactly the tag; injecting into non-empty
content with no existing tag prepends the tag (separated by a newline); and
injecting into any content containing one or more complete
`<brief>...</brief>` occurrences — written in its canonical occurrence
decomposition: a prefix with no opening marker, tagged values with no
closing marker inside, separators with no opening marker, and a trailing
remainder with no complete tag — replaces every occurrence with the new
value, preserving all surrounding text. -/
theorem claim_C9 (x : List Char) :
    injectBrief x none = briefTag x ∧
    injectBrief x (some []) = briefTag x ∧
    (∀ c, c ≠ [] → findTagSplit c = none →
      injectBrief x (some c) = briefTag x ++ '\n' :: c) ∧
    (∀ s0 pairs vlast rest,
      occursIn briefOpen s0 = false →
      (∀ p ∈ pairs, occursIn briefClose p.1 = false ∧
        occursIn briefOpen p.2 = false) →
      occursIn briefClose vlast = false →
      findTagSplit rest = none →
      injectBrief x (some (s0 ++ buildBrief pairs ++ briefTag vlast ++ rest)) =
        s0 ++ buildBrief (pairs.map fun p => (x, p.2)) ++ briefTag x ++ rest) := by
  refine ⟨rfl, rfl, ?_, ?_⟩
  · intro c hne hnone
    simp [injectBrief, hne, hnone]
  · intro s0 pairs vlast rest h0 hp hvl hrest
    have hcne : s0 ++ buildBrief pairs ++ briefTag vlast ++ rest ≠ [] := by
      simp [briefTag, briefOpen]
    have hsome :
        (findTagSplit (s0 ++ buildBrief pairs ++ briefTag vlast ++ rest)).isSome
          = true := by
      cases pairs with
      | nil =>
        have e : s0 ++ buildBrief [] ++ briefTag vlast ++ rest =
            s0 ++ (briefTag vlast ++ rest) := by
          simp [buildBrief]
        rw [e, findTagSplit_decomp s0 vlast rest h0 hvl]
        rfl
      | cons p ps =>
        obtain ⟨hv, _⟩ := hp p (List.mem_cons_self p ps)
        have e : s0 ++ buildBrief (p :: ps) ++ briefTag vlast ++ rest =
            s0 ++ (briefTag p.1 ++
              (p.2 ++ buildBrief ps ++ briefTag vlast ++ rest)) := by
          simp [buildBrief, List.append_assoc]
        rw [e, findTagSplit_decomp s0 p.1 _ h0 hv]
        rfl
    rw [injectBrief, if_neg hcne, if_pos hsome]
    exact replaceAllTags_decomp x pairs s0 vlast rest h0 hp hvl hrest

theorem claim_C9_witness :
    (occursIn briefOpen ("5<6 ").data = false ∧
      (∀ p ∈ [(("a<b").data, (" x<y ").data)],
        occursIn briefClose p.1 = false ∧ occursIn briefOpen p.2 = false) ∧
      occursIn briefClose ("B").data = false ∧
      findTagSplit ("z<").data = none) ∧
    injectBrief ("New").data
        (some (("5<6 ").data ++ buildBrief [(("a<b").data, (" x<y ").data)] ++
          briefTag ("B").data ++ ("z<").data)) =
      ("5<6 ").data ++
        buildBrief ([(("a<b").data, (" x<y ").data)].map
          fun p => (("New").data, p.2)) ++
        briefTag ("New").data ++ ("z<").data :=
  ⟨⟨by decide, by decide, by decide, by decide⟩,
    (claim_C9 ("New").data).2.2.2 ("5<6 ").data
      [(("a<b").data, (" x<y ").data)] ("B").data ("z<").data
      (by decide) (by decide) (by decide) (by decide)⟩

end TickTick
